import Mathlib

/-!
Shallow embedding of the HyperGraphify repository: a transformer that rewrites
detector error models (DEMs) so that every error event touches at most two
detectors, decomposing "hyper-edges" (errors with three or more detector
targets) into chains of two-detector edges through freshly allocated virtual
detectors.

A stim DEM is modelled as a list of instructions.  Each instruction has a
type (error / detector / logical_observable / shift_detectors), a list of
numeric arguments (probabilities, modelled exactly as rationals), and a list
of targets (relative detector ids or logical-observable ids).  Printing an
instruction to text and re-parsing it (as the transformer does) round-trips,
so the text round-trip is modelled as the identity on instructions.
-/

namespace HyperGraphify

/-- A DEM target: a relative detector id `D<v>` or a logical observable `L<v>`
(what the code calls "others"). -/
inductive DemTarget where
  | det (val : ℕ)
  | obs (val : ℕ)
deriving DecidableEq, Repr

/-- The instruction kinds appearing in a DEM. -/
inductive DemInstructionType where
  | error
  | detector
  | logical_observable
  | shift_detectors
deriving DecidableEq, Repr

/-- One DEM instruction: kind, parenthesised arguments, targets. -/
structure DemInstruction where
  type : DemInstructionType
  args : List ℚ
  targets : List DemTarget
deriving DecidableEq, Repr

/-- `stim.DemTarget.is_relative_detector_id`. -/
def DemTarget.is_relative_detector_id : DemTarget → Bool
  | .det _ => true
  | .obs _ => false

/-- The detector ids collected by the loops `for t in instr.targets_copy(): if
t.is_relative_detector_id(): detectors.append(t.val)`, in target order. -/
def detectorVals (ts : List DemTarget) : List ℕ :=
  ts.filterMap (fun t => match t with | .det v => some v | .obs _ => none)

/-- An error instruction with three or more detector targets
(`instr.type == "error" and len(detectors) >= 3`). -/
def isHyperEdge (instr : DemInstruction) : Bool :=
  instr.type == .error && decide (3 ≤ (detectorVals instr.targets).length)

namespace HyperGraphTransformer

/-- `HyperGraphTransformer._max_detector_id` (src/src/hypergraphify/transform/
decomposer.py): largest detector id among the targets of ERROR instructions,
starting from `-1`; non-error instructions are not scanned. -/
def targets_max (ts : List DemTarget) (m : ℤ) : ℤ :=
  ts.foldl
    (fun m t =>
      match t with
      | .det v => if (v : ℤ) > m then (v : ℤ) else m
      | .obs _ => m)
    m

/-- `HyperGraphTransformer._max_detector_id` continued: the outer loop over
instructions, only entering error instructions. -/
def max_detector_id (dem : List DemInstruction) : ℤ :=
  dem.foldl
    (fun acc instr =>
      if instr.type = .error then targets_max instr.targets acc else acc)
    (-1)

/-- One entry of `self.transformation_log`. -/
structure LogEntry where
  type : String
  version : String
  instruction_index : ℕ
  original_detectors : List ℕ
  virtual_nodes : List ℕ
  edges_created : ℕ
  probability : ℚ
deriving DecidableEq, Repr

/-- The edge-building loop of `transform` (decomposer.py lines 79–91): for each
consecutive pair `(detectors[i], detectors[i+1])` allocate one fresh virtual id
`v` and append the two edges `(detectors[i], v)` and `(v, detectors[i+1])`.
Returns the edge list and the counter after the loop. -/
def chainEdges : List ℕ → ℕ → List (ℕ × ℕ) × ℕ
  | a :: b :: rest, v =>
    let r := chainEdges (b :: rest) (v + 1)
    ((a, v) :: (v, b) :: r.1, r.2)
  | _, v => ([], v)

/-- The body of `transform`'s loop for one instruction at index `idx`, given
the run's first virtual id `firstV` and the current `next_virtual` counter `v`:
returns the lines emitted for this instruction, the updated counter, and the
log entries appended. -/
def emitFor (firstV idx : ℕ) (instr : DemInstruction) (v : ℕ) :
    List DemInstruction × ℕ × List LogEntry :=
  if instr.type = .error then
    let prob := instr.args.headD 0
    let detectors := detectorVals instr.targets
    if 3 ≤ detectors.length then
      let r := chainEdges detectors v
      let entry : LogEntry :=
        { type := "hyperedge_decomposed"
          version := "0.1.0"
          instruction_index := idx
          original_detectors := detectors
          virtual_nodes := List.range' firstV (r.2 - firstV)
          edges_created := r.1.length
          probability := prob }
      (r.1.map (fun e =>
          { type := .error, args := [prob],
            targets := [DemTarget.det e.1, DemTarget.det e.2] }),
       r.2, [entry])
    else ([instr], v, [])
  else ([instr], v, [])

/-- The main loop of `transform` over the enumerated instruction list,
threading the `next_virtual` counter and concatenating emitted lines and log
entries in order. -/
def transformAux (firstV : ℕ) : ℕ → List DemInstruction → ℕ →
    List DemInstruction × ℕ × List LogEntry
  | _, [], v => ([], v, [])
  | idx, instr :: rest, v =>
    let r := emitFor firstV idx instr v
    let s := transformAux firstV (idx + 1) rest r.2.1
    (r.1 ++ s.1, s.2.1, r.2.2 ++ s.2.2)

/-- The observable state after one `transform` call: the output model (the
re-parsed emitted lines), the final `next_virtual` counter, and the
transformer's `transformation_log` field. -/
structure TransformState where
  lines : List DemInstruction
  next_virtual : ℕ
  transformation_log : List LogEntry
deriving DecidableEq, Repr

/-- `HyperGraphTransformer.transform` run on a transformer whose
`transformation_log` currently holds `log0`: computes
`next_virtual = max_detector_id(dem) + 1`, walks the instructions, and appends
the new log entries to the existing log. -/
def transformRun (log0 : List LogEntry) (dem : List DemInstruction) :
    TransformState :=
  let firstV := (max_detector_id dem + 1).toNat
  let r := transformAux firstV 0 dem firstV
  ⟨r.1, r.2.1, log0 ++ r.2.2⟩

/-- The output model of `transform` called on a freshly constructed
transformer. -/
def transform (dem : List DemInstruction) : List DemInstruction :=
  (transformRun [] dem).lines

/-- The virtual detector ids allocated during one `transform` run on a fresh
transformer: the ids handed out by the `next_virtual` counter, from its
starting value up to its final value. -/
def allocatedIds (dem : List DemInstruction) : List ℕ :=
  let firstV := (max_detector_id dem + 1).toNat
  List.range' firstV ((transformRun [] dem).next_virtual - firstV)

/-- The detector ids appearing in ERROR instructions of the model, in order:
the scan domain of `_max_detector_id`. -/
def error_detector_ids (dem : List DemInstruction) : List ℕ :=
  dem.flatMap (fun instr =>
    if instr.type = .error then detectorVals instr.targets else [])

/-- The detector ids appearing anywhere in the model (all instructions), the
scan domain of `HyperGraphifier._count_detectors`; used to state claims about
ids "present anywhere in the input model". -/
def all_detector_ids (dem : List DemInstruction) : List ℕ :=
  dem.flatMap (fun instr => detectorVals instr.targets)

/-- Specification-side description of the linear path built by the edge loop
of `transform`: the node sequence `d_0, v, d_1, v+1, d_2, …, d_{k-1}`, i.e.
every original detector in input order with one fresh virtual id inserted
between each consecutive pair.  Used to state the amended form of the
path-shape claim; the edges of the chain are the consecutive pairs of this
sequence. -/
def pathNodes : List ℕ → ℕ → List ℕ
  | a :: b :: rest, v => a :: v :: pathNodes (b :: rest) (v + 1)
  | l, _ => l

end HyperGraphTransformer

namespace HyperGraphifier

/-- `DecompositionResult` (src/src/hypergraphify/decomposer.py). -/
structure DecompositionResult where
  success : Bool
  original_detectors : List ℕ
  transformed_edges : List (ℕ × ℕ)
  virtual_nodes : List ℕ
  probability : ℚ
  failure_reason : Option String
deriving DecidableEq, Repr

/-- `HyperGraphifier._count_detectors`: `max(count, target.val + 1)` over the
detector targets of ALL instructions, starting from 0. -/
def count_detectors (dem : List DemInstruction) : ℕ :=
  dem.foldl
    (fun count instr =>
      instr.targets.foldl
        (fun c t =>
          match t with
          | .det v => max c (v + 1)
          | .obs _ => c)
        count)
    0

/-- The chain loop of `decompose_hyper_edge`: for each consecutive detector
pair, allocate one virtual node and emit the two edges
`(detectors[i], virtual)` and `(virtual, detectors[i+1])`; also collects the
virtual nodes in allocation order.  Returns (edges, virtual nodes, counter). -/
def chainWithNodes : List ℕ → ℕ → List (ℕ × ℕ) × List ℕ × ℕ
  | a :: b :: rest, v =>
    let r := chainWithNodes (b :: rest) (v + 1)
    ((a, v) :: (v, b) :: r.1, v :: r.2.1, r.2.2)
  | _, v => ([], [], v)

/-- `HyperGraphifier.decompose_hyper_edge`, with the mutable
`self.next_virtual_node` threaded explicitly: fails without raising when fewer
than three detectors are given, otherwise builds the chain. -/
def decompose_hyper_edge (detectors : List ℕ) (probability : ℚ) (nextv : ℕ) :
    DecompositionResult × ℕ :=
  if detectors.length < 3 then
    ({ success := false
       original_detectors := detectors
       transformed_edges := []
       virtual_nodes := []
       probability := probability
       failure_reason := some "Not a hyper-edge (<3 detectors)" }, nextv)
  else
    let r := chainWithNodes detectors nextv
    ({ success := true
       original_detectors := detectors
       transformed_edges := r.1
       virtual_nodes := r.2.1
       probability := probability
       failure_reason := none }, r.2.2)

end HyperGraphifier

namespace ChainTransformer

/-!
The second `HyperGraphTransformer` (src/hypergraphify/src/transform/
decomposer.py).  Its `_decompose_hyperedge` implements the documented
probability policy: the closed form `0.5 * (1 - sqrt(1 - 2p))` when the
hyper-edge has exactly three detectors and the uniform `p / (k - 1)`
otherwise.  `np.sqrt` on floats is modelled as an abstract square-root
function `sq : ℚ → ℚ` supplied as a parameter.
-/

/-- One chain edge as built by `_decompose_hyperedge`: a dict with `targets`
(detector ids) and `args` (the edge probability). -/
structure ChainEdge where
  targets : List ℕ
  args : List ℚ
deriving DecidableEq, Repr

/-- `HyperGraphTransformer._decompose_hyperedge`, with the stateful
`self.next_virtual_id` threaded explicitly and `np.sqrt` abstracted as `sq`.
Returns `none` (Python `None`) when fewer than three detectors are given.
List indexing (always in range for `k ≥ 3`) is modelled with `getD`. -/
def decompose_hyperedge (sq : ℚ → ℚ) (detectors : List ℕ) (args : List ℚ)
    (next_virtual_id : ℕ) : Option (List ChainEdge) × ℕ :=
  if detectors.length < 3 then (none, next_virtual_id)
  else
    let error_prob := args.headD (1 / 10)
    let edge_prob :=
      if detectors.length = 3 then (1 / 2) * (1 - sq (1 - 2 * error_prob))
      else error_prob / ((detectors.length : ℚ) - 1)
    let virtual_nodes := List.range' next_virtual_id (detectors.length - 2)
    let first : ChainEdge :=
      ⟨[detectors.headD 0, virtual_nodes.headD 0], [edge_prob]⟩
    let middle := (List.range' 1 (detectors.length - 2)).map (fun i =>
      if i < detectors.length - 2 then
        (⟨[virtual_nodes.getD (i - 1) 0, virtual_nodes.getD i 0],
          [edge_prob]⟩ : ChainEdge)
      else
        ⟨[virtual_nodes.getD (i - 1) 0, detectors.getLastD 0], [edge_prob]⟩)
    (some (first :: middle), next_virtual_id + (detectors.length - 2))

end ChainTransformer

/-- The result dictionary returned by the verifiers' `verify`. -/
structure VerificationResults where
  original_non_empty : Bool
  transformed_non_empty : Bool
  valid : Bool
deriving DecidableEq, Repr

namespace TransformationVerifier

/-- `TransformationVerifier._has_instructions`
(src/src/hypergraphify/validation/verifier.py): `len(list(dem)) > 0`. -/
def has_instructions (dem : List DemInstruction) : Bool :=
  decide (0 < dem.length)

/-- `TransformationVerifier.verify` (validation/verifier.py), the verifier the
package exports: `valid = all(results.values())` where the results dict holds
only the two non-emptiness checks — no graphlike re-scan. -/
def verify (original transformed : List DemInstruction) : VerificationResults :=
  let o := has_instructions original
  let t := has_instructions transformed
  ⟨o, t, o && t⟩

end TransformationVerifier

namespace Api

/-- `str(dem).strip() != ""` in api.py's verifier: a DEM prints to the empty
string exactly when it has no instructions, so this is non-emptiness of the
instruction list. -/
def str_non_empty (dem : List DemInstruction) : Bool :=
  decide (dem ≠ [])

/-- `is_graphlike_manual` inside api.py's `TransformationVerifier.verify`:
no error instruction has more than two detector targets. -/
def is_graphlike_manual (dem : List DemInstruction) : Bool :=
  dem.all (fun instr =>
    if instr.type = .error then decide ((detectorVals instr.targets).length ≤ 2)
    else true)

/-- api.py's `TransformationVerifier.verify`: valid requires both models
non-empty AND the transformed model graphlike. -/
def verify (original transformed : List DemInstruction) : VerificationResults :=
  let o := str_non_empty original
  let t := str_non_empty transformed
  ⟨o, t, o && t && is_graphlike_manual transformed⟩

end Api

/-- The model `error(0.1) D0 D1 D2`: a single three-detector hyper-edge. -/
def demHyper : List DemInstruction :=
  [⟨.error, [1 / 10], [.det 0, .det 1, .det 2]⟩]

/-- The model `detector D5` followed by `error(0.1) D0 D1 D2`: a detector
declaration whose id is larger than any detector id used in an error. -/
def demDecl : List DemInstruction :=
  [⟨.detector, [], [.det 5]⟩, ⟨.error, [1 / 10], [.det 0, .det 1, .det 2]⟩]

/-- The model `error(0.05) D3 D4`: already graphlike. -/
def demGraph : List DemInstruction :=
  [⟨.error, [1 / 20], [.det 3, .det 4]⟩]

/-- The hyper-edge `error(0.1) D0 D1 D2 L0`: three detector targets plus one
logical-observable target. -/
def instrObs : DemInstruction :=
  ⟨.error, [1 / 10], [.det 0, .det 1, .det 2, .obs 0]⟩

/-! ## Helper lemmas -/

namespace HyperGraphTransformer

lemma pathNodes_cons_cons (b : ℕ) (rest : List ℕ) (w : ℕ) :
    ∃ q, pathNodes (b :: rest) w = b :: q := by
  cases rest with
  | nil => exact ⟨[], rfl⟩
  | cons c r => exact ⟨w :: pathNodes (c :: r) (w + 1), rfl⟩

lemma chainEdges_fst_eq_zip (ds : List ℕ) (v : ℕ) :
    (chainEdges ds v).1 = (pathNodes ds v).zip ((pathNodes ds v).tail) := by
  induction ds generalizing v with
  | nil => simp [chainEdges, pathNodes]
  | cons a tail ih =>
    cases tail with
    | nil => simp [chainEdges, pathNodes]
    | cons b rest =>
      obtain ⟨q, hq⟩ := pathNodes_cons_cons b rest (v + 1)
      simp only [chainEdges, pathNodes, List.zip_cons_cons, List.tail_cons]
      rw [ih (v + 1), hq]
      simp [List.zip_cons_cons]

lemma chainEdges_length (ds : List ℕ) (v : ℕ) :
    (chainEdges ds v).1.length = 2 * (ds.length - 1) := by
  induction ds generalizing v with
  | nil => simp [chainEdges]
  | cons a tail ih =>
    cases tail with
    | nil => simp [chainEdges]
    | cons b rest =>
      simp only [chainEdges, List.length_cons]
      rw [ih (v + 1)]
      simp only [List.length_cons]
      omega

lemma chainEdges_snd (ds : List ℕ) (v : ℕ) :
    (chainEdges ds v).2 = v + (ds.length - 1) := by
  induction ds generalizing v with
  | nil => simp [chainEdges]
  | cons a tail ih =>
    cases tail with
    | nil => simp [chainEdges]
    | cons b rest =>
      simp only [chainEdges]
      rw [ih (v + 1)]
      simp only [List.length_cons]
      omega

lemma emitFor_not_hyper (f i : ℕ) (instr : DemInstruction) (v : ℕ)
    (h : isHyperEdge instr = false) : emitFor f i instr v = ([instr], v, []) := by
  unfold emitFor
  unfold isHyperEdge at h
  by_cases he : instr.type = DemInstructionType.error
  · simp only [he, if_pos rfl]
    have : ¬ 3 ≤ (detectorVals instr.targets).length := by
      intro hc
      rw [Bool.and_eq_false_iff] at h
      rcases h with h | h
      · exact absurd h (by simp [he])
      · exact absurd h (by simp [hc])
    simp [this]
  · simp [he]

lemma emitFor_hyper_out (f i : ℕ) (instr : DemInstruction) (v : ℕ)
    (h : isHyperEdge instr = true) :
    (emitFor f i instr v).1 =
      ((chainEdges (detectorVals instr.targets) v).1).map (fun e =>
        { type := .error, args := [instr.args.headD 0],
          targets := [DemTarget.det e.1, DemTarget.det e.2] }) := by
  unfold isHyperEdge at h
  rw [Bool.and_eq_true] at h
  obtain ⟨h1, h2⟩ := h
  have he : instr.type = DemInstructionType.error := by
    exact eq_of_beq h1
  have hl : 3 ≤ (detectorVals instr.targets).length := of_decide_eq_true h2
  unfold emitFor
  simp [he, hl]

lemma emitFor_log_length (f i : ℕ) (instr : DemInstruction) (v : ℕ) :
    (emitFor f i instr v).2.2.length = if isHyperEdge instr then 1 else 0 := by
  by_cases h : isHyperEdge instr = true
  · unfold isHyperEdge at h
    rw [Bool.and_eq_true] at h
    obtain ⟨h1, h2⟩ := h
    have he : instr.type = DemInstructionType.error := eq_of_beq h1
    have hl : 3 ≤ (detectorVals instr.targets).length := of_decide_eq_true h2
    unfold emitFor
    simp [he, hl, isHyperEdge, h1, h2]
  · rw [emitFor_not_hyper f i instr v (by simpa using h)]
    simp [Bool.eq_false_iff.mpr h]

lemma transformAux_append (f i v : ℕ) (pre post : List DemInstruction) :
    transformAux f i (pre ++ post) v =
      ((transformAux f i pre v).1
         ++ (transformAux f (i + pre.length) post (transformAux f i pre v).2.1).1,
       (transformAux f (i + pre.length) post (transformAux f i pre v).2.1).2.1,
       (transformAux f i pre v).2.2
         ++ (transformAux f (i + pre.length) post (transformAux f i pre v).2.1).2.2) := by
  induction pre generalizing i v with
  | nil => simp [transformAux]
  | cons a pre ih =>
    simp only [List.cons_append, transformAux, List.length_cons, List.append_eq]
    rw [ih (i + 1) (emitFor f i a v).2.1]
    have harith : i + (pre.length + 1) = i + 1 + pre.length := by omega
    simp [harith, List.append_assoc]

lemma transformAux_out_graphlike (f : ℕ) :
    ∀ (dem : List DemInstruction) (i v : ℕ) (e : DemInstruction),
      e ∈ (transformAux f i dem v).1 → e.type = .error →
      (detectorVals e.targets).length ≤ 2 := by
  intro dem
  induction dem with
  | nil => intro i v e he _; simp [transformAux] at he
  | cons a rest ih =>
    intro i v e he herr
    simp only [transformAux, List.mem_append] at he
    rcases he with he | he
    · by_cases h : isHyperEdge a = true
      · rw [emitFor_hyper_out f i a v h] at he
        simp only [List.mem_map] at he
        obtain ⟨p, _, hp⟩ := he
        rw [← hp]
        simp [detectorVals]
      · rw [emitFor_not_hyper f i a v (by simpa using h)] at he
        simp only [List.mem_singleton] at he
        subst he
        by_cases hlen : 3 ≤ (detectorVals e.targets).length
        · exact absurd (by unfold isHyperEdge; simp [herr, hlen]) h
        · omega
    · exact ih (i + 1) (emitFor f i a v).2.1 e he herr

lemma transformAux_no_hyper_id (f : ℕ) :
    ∀ (dem : List DemInstruction) (i v : ℕ),
      (∀ e ∈ dem, isHyperEdge e = false) → (transformAux f i dem v).1 = dem := by
  intro dem
  induction dem with
  | nil => intro i v _; simp [transformAux]
  | cons a rest ih =>
    intro i v h
    simp only [transformAux]
    rw [emitFor_not_hyper f i a v (h a (by simp))]
    simp only [List.cons_append, List.nil_append]
    rw [ih (i + 1) v (fun e he => h e (by simp [he]))]

lemma transformAux_log_length (f : ℕ) :
    ∀ (dem : List DemInstruction) (i v : ℕ),
      (transformAux f i dem v).2.2.length = dem.countP (fun e => isHyperEdge e) := by
  intro dem
  induction dem with
  | nil => intro i v; simp [transformAux]
  | cons a rest ih =>
    intro i v
    simp only [transformAux, List.length_append, List.countP_cons]
    rw [emitFor_log_length, ih (i + 1) (emitFor f i a v).2.1]
    by_cases h : isHyperEdge a = true
    · simp only [h, if_true]
      omega
    · simp only [h, if_false]
      omega

lemma targets_max_le (ts : List DemTarget) (m : ℤ) : m ≤ targets_max ts m := by
  induction ts generalizing m with
  | nil => simp [targets_max]
  | cons t rest ih =>
    unfold targets_max
    simp only [List.foldl_cons]
    cases t with
    | det w =>
      refine le_trans ?_ (ih (if (w : ℤ) > m then (w : ℤ) else m))
      split <;> omega
    | obs w => exact ih m

lemma targets_max_mem (ts : List DemTarget) (m : ℤ) (w : ℕ)
    (h : w ∈ detectorVals ts) : (w : ℤ) ≤ targets_max ts m := by
  induction ts generalizing m with
  | nil => simp [detectorVals] at h
  | cons t rest ih =>
    cases t with
    | det u =>
      simp only [detectorVals, List.filterMap_cons_some] at h
      unfold targets_max
      simp only [List.foldl_cons]
      rcases List.mem_cons.mp h with h | h
      · subst h
        refine le_trans ?_ (targets_max_le rest _)
        split <;> omega
      · exact ih _ h
    | obs u =>
      simp only [detectorVals, List.filterMap_cons_none] at h
      unfold targets_max
      simp only [List.foldl_cons]
      exact ih m h

lemma max_detector_id_fold_le (dem : List DemInstruction) (acc : ℤ) :
    acc ≤ dem.foldl
      (fun acc instr =>
        if instr.type = .error then targets_max instr.targets acc else acc)
      acc := by
  induction dem generalizing acc with
  | nil => simp
  | cons a rest ih =>
    simp only [List.foldl_cons]
    refine le_trans ?_ (ih _)
    split
    · exact targets_max_le a.targets acc
    · exact le_refl acc

lemma max_detector_id_fold_mem (dem : List DemInstruction) (acc : ℤ) (d : ℕ)
    (h : d ∈ error_detector_ids dem) :
    (d : ℤ) ≤ dem.foldl
      (fun acc instr =>
        if instr.type = .error then targets_max instr.targets acc else acc)
      acc := by
  induction dem generalizing acc with
  | nil => simp [error_detector_ids] at h
  | cons a rest ih =>
    simp only [error_detector_ids, List.flatMap_cons, List.mem_append] at h
    simp only [List.foldl_cons]
    rcases h with h | h
    · by_cases he : a.type = DemInstructionType.error
      · simp only [he, if_pos rfl] at h ⊢
        refine le_trans (targets_max_mem a.targets acc d h) ?_
        exact max_detector_id_fold_le rest _
      · simp [he] at h
    · exact ih _ h

lemma max_detector_id_ge (dem : List DemInstruction) (d : ℕ)
    (h : d ∈ error_detector_ids dem) : (d : ℤ) ≤ max_detector_id dem :=
  max_detector_id_fold_mem dem (-1) d h

lemma transform_eq_aux (dem : List DemInstruction) :
    transform dem =
      (transformAux ((max_detector_id dem + 1).toNat) 0 dem
        ((max_detector_id dem + 1).toNat)).1 := rfl

end HyperGraphTransformer

/-! ## Claim theorems -/

open HyperGraphTransformer

/-- C1: for every input error model, every error event in the model returned
by `HyperGraphTransformer.transform` has at most two detector targets — the
graphlike post-condition holds unconditionally on the output. -/
theorem C1_transform_graphlike (dem : List DemInstruction) (e : DemInstruction)
    (he : e ∈ transform dem) (herr : e.type = DemInstructionType.error) :
    (detectorVals e.targets).length ≤ 2 := by
  rw [transform_eq_aux] at he
  exact transformAux_out_graphlike _ dem 0 _ e he herr

theorem C1_witness :
    (⟨.error, [1 / 10], [.det 0, .det 3]⟩ : DemInstruction) ∈ transform demHyper
    ∧ (detectorVals
        (⟨.error, [1 / 10], [.det 0, .det 3]⟩ : DemInstruction).targets).length ≤ 2 := by
  have hmem : (⟨.error, [1 / 10], [.det 0, .det 3]⟩ : DemInstruction)
      ∈ transform demHyper := by
    rw [show transform demHyper = [⟨.error, [1 / 10], [.det 0, .det 3]⟩,
        ⟨.error, [1 / 10], [.det 3, .det 1]⟩, ⟨.error, [1 / 10], [.det 1, .det 4]⟩,
        ⟨.error, [1 / 10], [.det 4, .det 2]⟩] from rfl]
    exact List.mem_cons_self _ _
  exact ⟨hmem, C1_transform_graphlike demHyper _ hmem (by decide)⟩

/-- C2 counterexample: the claim says a hyper-edge with `k` detectors is
decomposed into exactly `k − 1` edges with exactly `k − 2` virtual detectors,
but the edge loop of `transform` produces `2·(k − 1)` edges and allocates
`k − 1` virtual ids: on detectors `[0, 1, 2]` (`k = 3`) it builds 4 edges (not
2) and advances the virtual counter by 2 (not 1). -/
theorem C2_counterexample :
    (chainEdges [0, 1, 2] 3).1.length = 4
    ∧ ¬((chainEdges [0, 1, 2] 3).1.length = 3 - 1)
    ∧ ¬((chainEdges [0, 1, 2] 3).2 - 3 = 3 - 2) := by decide

/-- C2 (amended): for every hyper-edge with `k ≥ 3` detectors, the edge loop
of `transform` produces a linear path that visits every original detector in
input order with exactly one virtual detector inserted between each
consecutive pair — the edges are exactly the consecutive pairs of the node
sequence `d_0, v, d_1, v+1, …, d_{k-1}` — yielding exactly `2·(k − 1)` edges
(two per consecutive detector pair) and exactly `k − 1` virtual detectors. -/
theorem C2_amended_chain_shape (ds : List ℕ) (v : ℕ) (_h : 3 ≤ ds.length) :
    (chainEdges ds v).1 = (pathNodes ds v).zip ((pathNodes ds v).tail)
    ∧ (chainEdges ds v).1.length = 2 * (ds.length - 1)
    ∧ (chainEdges ds v).2 = v + (ds.length - 1) :=
  ⟨chainEdges_fst_eq_zip ds v, chainEdges_length ds v, chainEdges_snd ds v⟩

theorem C2_witness :
    3 ≤ ([0, 1, 2] : List ℕ).length
    ∧ ((chainEdges [0, 1, 2] 3).1
          = (pathNodes [0, 1, 2] 3).zip ((pathNodes [0, 1, 2] 3).tail)
        ∧ (chainEdges [0, 1, 2] 3).1.length = 2 * (([0, 1, 2] : List ℕ).length - 1)
        ∧ (chainEdges [0, 1, 2] 3).2 = 3 + (([0, 1, 2] : List ℕ).length - 1)) :=
  ⟨by decide, C2_amended_chain_shape [0, 1, 2] 3 (by decide)⟩

/-- C6: every event that is not a hyper-edge is emitted unchanged, and the
output of the transform loop on `pre ++ e :: post` is the output for `pre`,
then the block emitted for `e` (its replacement edges if it is a hyper-edge,
the event itself otherwise), then the output for `post` — i.e. events keep
their original relative order and hyper-edges are replaced in place. -/
theorem C6_in_place_rewrite (f i v : ℕ) (pre post : List DemInstruction)
    (e : DemInstruction) :
    ((transformAux f i (pre ++ e :: post) v).1 =
      (transformAux f i pre v).1
      ++ (emitFor f (i + pre.length) e (transformAux f i pre v).2.1).1
      ++ (transformAux f (i + pre.length + 1) post
            (emitFor f (i + pre.length) e (transformAux f i pre v).2.1).2.1).1)
    ∧ (∀ j w, isHyperEdge e = false → (emitFor f j e w).1 = [e]) := by
  constructor
  · have h := transformAux_append f i v pre (e :: post)
    have h2 : (transformAux f i (pre ++ e :: post) v).1 =
        (transformAux f i pre v).1
        ++ (transformAux f (i + pre.length) (e :: post)
              (transformAux f i pre v).2.1).1 := by
      rw [h]
    rw [h2]
    simp only [transformAux, List.append_assoc]
  · intro j w hnh
    rw [emitFor_not_hyper f j e w hnh]

theorem C6_witness :
    isHyperEdge (⟨.detector, [], [.det 5]⟩ : DemInstruction) = false
    ∧ (emitFor 3 0 (⟨.detector, [], [.det 5]⟩ : DemInstruction) 3).1
        = [⟨.detector, [], [.det 5]⟩] :=
  ⟨by decide,
   (C6_in_place_rewrite 3 0 3 [] [] ⟨.detector, [], [.det 5]⟩).2 0 3 (by decide)⟩

/-- C7: transforming a model that contains no hyper-edge (no error event with
three or more detector targets) returns the input model unchanged. -/
theorem C7_graphlike_fixed_point (dem : List DemInstruction)
    (h : ∀ e ∈ dem, isHyperEdge e = false) : transform dem = dem := by
  rw [transform_eq_aux]
  exact transformAux_no_hyper_id _ dem 0 _ h

theorem C7_witness :
    (∀ e ∈ demGraph, isHyperEdge e = false) ∧ transform demGraph = demGraph :=
  ⟨by decide, C7_graphlike_fixed_point demGraph (by decide)⟩

/-- C3 counterexample: on the hyper-edge `error(0.1) D0 D1 D2` (`k = 3`) the
primary transform emits replacement edges carrying the original probability
`1/10` unchanged, which differs from the claimed closed form
`0.5 · (1 − sqrt(1 − 2·(1/10)))`. -/
theorem C3_counterexample :
    (transform demHyper).head? = some ⟨.error, [1 / 10], [.det 0, .det 3]⟩
    ∧ (1 : ℝ) / 10 ≠ (1 / 2) * (1 - Real.sqrt (1 - 2 * (1 / 10))) := by
  constructor
  · rfl
  · intro hc
    have hs : Real.sqrt (1 - 2 * ((1 : ℝ) / 10)) = 4 / 5 := by linarith
    have h2 := Real.sq_sqrt (show (0 : ℝ) ≤ 1 - 2 * ((1 : ℝ) / 10) by norm_num)
    rw [hs] at h2
    norm_num at h2

/-- C3 (amended): replacement edges of one decomposed hyper-edge always share
a single probability, but the two implementations assign it differently.  The
primary `HyperGraphTransformer.transform` (src/src/...) keeps the hyper-edge's
original probability `p` unchanged on every emitted edge; only the alternate
`HyperGraphTransformer._decompose_hyperedge` (src/hypergraphify/src/...)
applies the claimed formulas: `q = 0.5 · (1 − sqrt(1 − 2p))` when the
hyper-edge has exactly 3 detectors and `q = p / (k − 1)` when it has `k > 3`,
identically on every edge in its chain. -/
theorem C3_amended_edge_probability :
    (∀ (f i : ℕ) (instr : DemInstruction) (v : ℕ) (e : DemInstruction),
       isHyperEdge instr = true → e ∈ (emitFor f i instr v).1 →
       e.args = [instr.args.headD 0])
    ∧ (∀ (sq : ℚ → ℚ) (ds : List ℕ) (args : List ℚ) (v : ℕ)
         (e : ChainTransformer.ChainEdge),
       3 ≤ ds.length →
       e ∈ ((ChainTransformer.decompose_hyperedge sq ds args v).1.getD []) →
       e.args = [if ds.length = 3
                 then (1 / 2) * (1 - sq (1 - 2 * args.headD (1 / 10)))
                 else args.headD (1 / 10) / ((ds.length : ℚ) - 1)]) := by
  constructor
  · intro f i instr v e hh he
    rw [emitFor_hyper_out f i instr v hh] at he
    simp only [List.mem_map] at he
    obtain ⟨p, _, hp⟩ := he
    rw [← hp]
  · intro sq ds args v e h3 he
    have hnl : ¬ ds.length < 3 := by omega
    unfold ChainTransformer.decompose_hyperedge at he
    simp only [hnl, if_false, Option.getD_some, List.mem_cons, List.mem_map,
      ite_false] at he
    rcases he with he | ⟨j, _, hj⟩
    · rw [he]
    · rw [← hj]
      by_cases hlt : j < ds.length - 2
      · simp only [hlt, if_pos]
      · simp only [hlt, if_neg, ite_false]

theorem C3_witness :
    ((⟨.error, [1 / 10], [.det 0, .det 3]⟩ : DemInstruction).args
        = [(demHyper.headD ⟨.error, [], []⟩).args.headD 0])
    ∧ ((⟨[0, 10000], [(1 : ℚ) / 10 / ((4 : ℚ) - 1)]⟩ : ChainTransformer.ChainEdge).args
        = [if ([0, 1, 2, 3] : List ℕ).length = 3
           then (1 / 2) * (1 - id (1 - 2 * ([(1 : ℚ) / 10].headD (1 / 10))))
           else [(1 : ℚ) / 10].headD (1 / 10) / ((([0, 1, 2, 3] : List ℕ).length : ℚ) - 1)]) := by
  constructor
  · exact C3_amended_edge_probability.1 3 0 (demHyper.headD ⟨.error, [], []⟩) 3 _
      (by decide)
      (by rw [show (emitFor 3 0 (demHyper.headD ⟨.error, [], []⟩) 3).1
            = [⟨.error, [1 / 10], [.det 0, .det 3]⟩, ⟨.error, [1 / 10], [.det 3, .det 1]⟩,
               ⟨.error, [1 / 10], [.det 1, .det 4]⟩, ⟨.error, [1 / 10], [.det 4, .det 2]⟩]
            from rfl]
          exact List.mem_cons_self _ _)
  · exact C3_amended_edge_probability.2 id [0, 1, 2, 3] [(1 : ℚ) / 10] 10000 _
      (by decide)
      (by rw [show ((ChainTransformer.decompose_hyperedge id [0, 1, 2, 3]
              [(1 : ℚ) / 10] 10000).1.getD [])
            = [⟨[0, 10000], [(1 : ℚ) / 10 / ((4 : ℚ) - 1)]⟩,
               ⟨[10000, 10001], [(1 : ℚ) / 10 / ((4 : ℚ) - 1)]⟩,
               ⟨[10001, 3], [(1 : ℚ) / 10 / ((4 : ℚ) - 1)]⟩] from rfl]
          exact List.mem_cons_self _ _)

/-- C4 counterexample: the exported verifier
(`validation/verifier.py`) checks only that both models are non-empty: on a
non-empty original and a transformed model that still contains a
three-detector error it returns `valid = true`, although the claimed
right-hand side (transformed model graphlike) is false. -/
theorem C4_counterexample :
    (TransformationVerifier.verify demGraph
        [⟨.error, [], [.det 0, .det 1, .det 2]⟩]).valid = true
    ∧ Api.is_graphlike_manual [⟨.error, [], [.det 0, .det 1, .det 2]⟩] = false := by
  decide

/-- C4 (amended): the exported verifier's `valid` is true iff both models
contain at least one instruction — it performs no graphlike re-scan; the
separate verifier in `api.py` returns `valid = true` iff both models are
non-empty AND every error event in the transformed model has at most two
detector targets. -/
theorem C4_amended_validity :
    (∀ o t : List DemInstruction,
       (TransformationVerifier.verify o t).valid = true
         ↔ 0 < o.length ∧ 0 < t.length)
    ∧ (∀ o t : List DemInstruction,
       (Api.verify o t).valid = true
         ↔ o ≠ [] ∧ t ≠ [] ∧ Api.is_graphlike_manual t = true) := by
  constructor
  · intro o t
    simp [TransformationVerifier.verify, TransformationVerifier.has_instructions]
  · intro o t
    simp [Api.verify, Api.str_non_empty, and_assoc]

theorem C4_witness :
    (TransformationVerifier.verify demGraph demGraph).valid = true
    ∧ (Api.verify demGraph demGraph).valid = true :=
  ⟨(C4_amended_validity.1 demGraph demGraph).mpr (by decide),
   (C4_amended_validity.2 demGraph demGraph).mpr
     ⟨by decide, by decide, by decide⟩⟩

/-- C5 counterexample: `_max_detector_id` scans only error instructions, so a
detector id that appears only in a non-error declaration is missed.  On the
model `detector D5; error(0.1) D0 D1 D2` the first allocated virtual id is 3,
which is not strictly greater than the detector id 5 present in the input
model, and the replacement edge `error(0.1) D0 D3` reuses id 3. -/
theorem C5_counterexample :
    3 ∈ allocatedIds demDecl
    ∧ 5 ∈ all_detector_ids demDecl
    ∧ ¬(5 < 3)
    ∧ (⟨.error, [1 / 10], [.det 0, .det 3]⟩ : DemInstruction) ∈ transform demDecl := by
  refine ⟨by decide, by decide, by decide, ?_⟩
  rw [show transform demDecl = [⟨.detector, [], [.det 5]⟩,
      ⟨.error, [1 / 10], [.det 0, .det 3]⟩, ⟨.error, [1 / 10], [.det 3, .det 1]⟩,
      ⟨.error, [1 / 10], [.det 1, .det 4]⟩, ⟨.error, [1 / 10], [.det 4, .det 2]⟩]
    from rfl]
  exact List.mem_cons_of_mem _ (List.mem_cons_self _ _)

/-- C5 (amended): every virtual detector id allocated during one transform run
is strictly greater than every detector id appearing in the ERROR instructions
of the input model (ids appearing only in non-error declarations are not
scanned), and the allocated ids are pairwise distinct. -/
theorem C5_amended_freshness (dem : List DemInstruction) :
    (∀ v ∈ allocatedIds dem, ∀ d ∈ error_detector_ids dem, d < v)
    ∧ (allocatedIds dem).Nodup := by
  constructor
  · intro v hv d hd
    have h1 : (d : ℤ) ≤ max_detector_id dem := max_detector_id_ge dem d hd
    have h2 : (max_detector_id dem + 1).toNat ≤ v := by
      unfold allocatedIds at hv
      exact (List.mem_range'_1.mp hv).1
    omega
  · unfold allocatedIds
    exact List.nodup_range' _ _

theorem C5_witness :
    3 ∈ allocatedIds demHyper ∧ 0 ∈ error_detector_ids demHyper ∧ 0 < 3 :=
  ⟨by decide, by decide,
   (C5_amended_freshness demHyper).1 3 (by decide) 0 (by decide)⟩

/-- C8: `HyperGraphifier.decompose_hyper_edge` returns `success = false`
(carrying a failure reason, as a value rather than an exception — the
embedding is a total function) exactly when the detector list has fewer than
three entries, and `success = true` whenever it has at least three. -/
theorem C8_decompose_guard (ds : List ℕ) (p : ℚ) (v : ℕ) :
    ((HyperGraphifier.decompose_hyper_edge ds p v).1.success = false
       ↔ ds.length < 3)
    ∧ (ds.length < 3 →
        (HyperGraphifier.decompose_hyper_edge ds p v).1.failure_reason
          = some "Not a hyper-edge (<3 detectors)")
    ∧ (3 ≤ ds.length →
        (HyperGraphifier.decompose_hyper_edge ds p v).1.success = true) := by
  unfold HyperGraphifier.decompose_hyper_edge
  by_cases h : ds.length < 3
  · simp [h]
  · simp [h]

theorem C8_witness :
    (([0] : List ℕ).length < 3)
    ∧ (HyperGraphifier.decompose_hyper_edge [0] (1 / 10) 5).1.failure_reason
        = some "Not a hyper-edge (<3 detectors)"
    ∧ (HyperGraphifier.decompose_hyper_edge [0, 1, 2] (1 / 10) 5).1.success = true :=
  ⟨by decide,
   (C8_decompose_guard [0] (1 / 10) 5).2.1 (by decide),
   (C8_decompose_guard [0, 1, 2] (1 / 10) 5).2.2 (by decide)⟩

/-- C9 counterexample: the transformation log is NOT rebuilt per run —
`transform` only appends to `self.transformation_log`, which is initialised in
`__init__` and never cleared.  Calling `transform` twice on the same
transformer with a one-hyper-edge model leaves 2 log entries after the second
call, not the 1 entry that call produced. -/
theorem C9_counterexample :
    (transformRun (transformRun [] demHyper).transformation_log
        demHyper).transformation_log.length = 2
    ∧ ¬((transformRun (transformRun [] demHyper).transformation_log
        demHyper).transformation_log.length = 1) := by
  decide

/-- C9 (amended): the log accumulates across calls on the same transformer:
at the end of each `transform` call the log equals its previous contents
followed by the entries of that call — exactly one new entry per hyper-edge
processed — and it starts empty only when a new transformer is constructed. -/
theorem C9_amended_log_accumulates (log0 : List LogEntry)
    (dem : List DemInstruction) :
    ((transformRun log0 dem).transformation_log
       = log0 ++ (transformRun [] dem).transformation_log)
    ∧ ((transformRun [] dem).transformation_log.length
       = dem.countP (fun e => isHyperEdge e)) := by
  constructor
  · simp [transformRun]
  · simp only [transformRun, List.nil_append]
    exact transformAux_log_length _ dem 0 _

/-- C10: for a hyper-edge that also carries logical-observable targets, every
replacement edge emitted by the transform has only detector targets: no
logical-observable target appears in any emitted edge. -/
theorem C10_observables_dropped (f i : ℕ) (instr : DemInstruction) (v : ℕ)
    (hh : isHyperEdge instr = true) (e : DemInstruction)
    (he : e ∈ (emitFor f i instr v).1) :
    (∀ t ∈ e.targets, t.is_relative_detector_id = true)
    ∧ (∀ o : ℕ, DemTarget.obs o ∉ e.targets) := by
  rw [emitFor_hyper_out f i instr v hh] at he
  simp only [List.mem_map] at he
  obtain ⟨p, _, hp⟩ := he
  constructor
  · intro t ht
    rw [← hp] at ht
    simp only [List.mem_cons, List.not_mem_nil, or_false] at ht
    rcases ht with ht | ht <;> rw [ht] <;> rfl
  · intro o hmem
    rw [← hp] at hmem
    simp [DemTarget.det.injEq] at hmem

theorem C10_witness :
    isHyperEdge instrObs = true
    ∧ (⟨.error, [1 / 10], [.det 0, .det 3]⟩ : DemInstruction)
        ∈ (emitFor 3 0 instrObs 3).1
    ∧ DemTarget.obs 0 ∉
        (⟨.error, [1 / 10], [.det 0, .det 3]⟩ : DemInstruction).targets := by
  have hmem : (⟨.error, [1 / 10], [.det 0, .det 3]⟩ : DemInstruction)
      ∈ (emitFor 3 0 instrObs 3).1 := by
    rw [show (emitFor 3 0 instrObs 3).1 = [⟨.error, [1 / 10], [.det 0, .det 3]⟩,
        ⟨.error, [1 / 10], [.det 3, .det 1]⟩, ⟨.error, [1 / 10], [.det 1, .det 4]⟩,
        ⟨.error, [1 / 10], [.det 4, .det 2]⟩] from rfl]
    exact List.mem_cons_self _ _
  exact ⟨by decide, hmem,
    (C10_observables_dropped 3 0 instrObs 3 (by decide) _ hmem).2 0⟩

end HyperGraphify
